import Mathlib

/-!
# Verification of the Resilient Update Orchestrator

Shallow embedding of the resilience core of the stock-screening backend:
the circuit breaker (`backend/circuit_breaker.py`), the token-bucket rate
limiter and exponential backoff (`backend/rate_limiter.py`), the data-update
registry (`backend/update_registry.py`) and the background data worker
(`backend/data_worker.py`).

Timestamps (Python `time.monotonic()` / `datetime.now()` floats) are modelled
as rationals (`ℚ`).  Stateful methods become pure functions from the old state
(plus the current time and any environmental inputs) to the new state.
-/

namespace StockScreening

/-! ## Circuit breaker (`backend/circuit_breaker.py`)

`CircuitState.opened` models the Python enum member `CircuitState.OPEN`
(`open` is a reserved word in Lean). -/

inductive CircuitState where
  | closed
  | opened
  | halfOpen
deriving DecidableEq, Repr

/-- `CircuitBreakerStats` from `circuit_breaker.py`. -/
structure CircuitBreakerStats where
  total_calls : Nat
  successful_calls : Nat
  failed_calls : Nat
  rejected_calls : Nat
  state_changes : Nat
  last_failure_time : Option ℚ
  last_success_time : Option ℚ
deriving DecidableEq, Repr

/-- Fresh statistics object (all counters zero, no timestamps). -/
def CircuitBreakerStats.init : CircuitBreakerStats :=
  { total_calls := 0, successful_calls := 0, failed_calls := 0,
    rejected_calls := 0, state_changes := 0,
    last_failure_time := none, last_success_time := none }

/-- The mutable state plus configuration of a `CircuitBreaker` instance.
Fields mirror `CircuitBreaker.__init__`. -/
structure CircuitBreaker where
  failure_threshold : Nat
  recovery_timeout : ℚ
  half_open_max_calls : Nat
  state : CircuitState
  failure_count : Nat
  last_failure_time : Option ℚ
  half_open_calls : Nat
  stats : CircuitBreakerStats
deriving DecidableEq, Repr

/-- `CircuitBreaker._transition_to`: set the new state, bump the
state-change counter, reset the probe counter on entry to half-open and the
failure counter on entry to closed. -/
def CircuitBreaker.transition_to (cb : CircuitBreaker) (new_state : CircuitState) :
    CircuitBreaker :=
  let cb := { cb with
    state := new_state,
    stats := { cb.stats with state_changes := cb.stats.state_changes + 1 } }
  match new_state with
  | .halfOpen => { cb with half_open_calls := 0 }
  | .closed => { cb with failure_count := 0 }
  | .opened => cb

/-- Increment `stats.rejected_calls` (the two rejection paths of
`_should_allow_request`). -/
def CircuitBreaker.rejectOne (cb : CircuitBreaker) : CircuitBreaker :=
  { cb with stats := { cb.stats with rejected_calls := cb.stats.rejected_calls + 1 } }

/-- `CircuitBreaker._should_allow_request`, with `now` standing for
`time.monotonic()`.  Returns the admission decision together with the updated
breaker state. -/
def CircuitBreaker.should_allow_request (cb : CircuitBreaker) (now : ℚ) :
    Bool × CircuitBreaker :=
  match cb.state with
  | .closed => (true, cb)
  | .opened =>
    match cb.last_failure_time with
    | some t =>
      if cb.recovery_timeout ≤ now - t then
        (true, cb.transition_to .halfOpen)
      else
        (false, cb.rejectOne)
    | none => (false, cb.rejectOne)
  | .halfOpen =>
    if cb.half_open_calls < cb.half_open_max_calls then
      (true, { cb with half_open_calls := cb.half_open_calls + 1 })
    else
      (false, cb.rejectOne)

/-- `CircuitBreaker.record_success`. -/
def CircuitBreaker.record_success (cb : CircuitBreaker) (now : ℚ) : CircuitBreaker :=
  let cb := { cb with
    stats := { cb.stats with
      successful_calls := cb.stats.successful_calls + 1,
      last_success_time := some now } }
  let cb := if cb.state = .halfOpen then cb.transition_to .closed else cb
  { cb with failure_count := 0 }

/-- `CircuitBreaker.record_failure`. -/
def CircuitBreaker.record_failure (cb : CircuitBreaker) (now : ℚ) : CircuitBreaker :=
  let cb := { cb with
    stats := { cb.stats with
      failed_calls := cb.stats.failed_calls + 1,
      last_failure_time := some now },
    failure_count := cb.failure_count + 1,
    last_failure_time := some now }
  if cb.state = .halfOpen then cb.transition_to .opened
  else if cb.failure_threshold ≤ cb.failure_count then cb.transition_to .opened
  else cb

/-- Outcome of the wrapped function when it does get invoked. -/
inductive FnOutcome where
  | ok
  | err
deriving DecidableEq, Repr

/-- `CircuitBreaker.execute`.  `fnResult` is the outcome the wrapped function
would produce if invoked; `fnCalls` is a call-count spy on the wrapped
function.  The first component is `none` when the call is rejected with
`CircuitOpenError` (the function is not invoked) and `some o` when the
function ran and its original outcome `o` is propagated. -/
def CircuitBreaker.execute (cb : CircuitBreaker) (now : ℚ) (fnResult : FnOutcome)
    (fnCalls : Nat) : Option FnOutcome × CircuitBreaker × Nat :=
  let p := cb.should_allow_request now
  if p.1 then
    let cb2 := { p.2 with
      stats := { p.2.stats with total_calls := p.2.stats.total_calls + 1 } }
    match fnResult with
    | .ok => (some .ok, cb2.record_success now, fnCalls + 1)
    | .err => (some .err, cb2.record_failure now, fnCalls + 1)
  else
    (none, p.2, fnCalls)

/-- A sequence of consecutive `record_failure` calls at the given times. -/
def CircuitBreaker.record_failures (cb : CircuitBreaker) (times : List ℚ) :
    CircuitBreaker :=
  times.foldl (fun c t => c.record_failure t) cb

/-! Helper lemmas: `record_failure` keeps the configuration, and while below
the threshold it keeps the breaker closed and counts up by one. -/

theorem record_failure_threshold (cb : CircuitBreaker) (t : ℚ) :
    (cb.record_failure t).failure_threshold = cb.failure_threshold := by
  simp only [CircuitBreaker.record_failure, CircuitBreaker.transition_to]
  split_ifs <;> rfl

theorem record_failure_closed (cb : CircuitBreaker) (t : ℚ)
    (hs : cb.state = .closed)
    (hlt : cb.failure_count + 1 < cb.failure_threshold) :
    (cb.record_failure t).state = .closed ∧
      (cb.record_failure t).failure_count = cb.failure_count + 1 := by
  unfold CircuitBreaker.record_failure
  simp only [hs]
  have h1 : ¬ (CircuitState.closed = CircuitState.halfOpen) := by simp
  rw [if_neg h1, if_neg (by omega)]
  exact ⟨rfl, rfl⟩

theorem record_failure_opens (cb : CircuitBreaker) (t : ℚ)
    (hs : cb.state = .closed)
    (hge : cb.failure_threshold ≤ cb.failure_count + 1) :
    (cb.record_failure t).state = .opened := by
  unfold CircuitBreaker.record_failure
  simp only [hs]
  have h1 : ¬ (CircuitState.closed = CircuitState.halfOpen) := by simp
  rw [if_neg h1, if_pos (by omega)]
  rfl

theorem record_failures_below_threshold (times : List ℚ) :
    ∀ cb : CircuitBreaker, cb.state = .closed →
      cb.failure_count + times.length < cb.failure_threshold →
      (cb.record_failures times).state = .closed ∧
        (cb.record_failures times).failure_count = cb.failure_count + times.length ∧
        (cb.record_failures times).failure_threshold = cb.failure_threshold := by
  induction times with
  | nil => intro cb hs hlt; exact ⟨hs, rfl, rfl⟩
  | cons t rest ih =>
    intro cb hs hlt
    have hstep := record_failure_closed cb t hs (by simp at hlt; omega)
    have hthr := record_failure_threshold cb t
    have hcons : cb.record_failures (t :: rest) =
        (cb.record_failure t).record_failures rest := rfl
    have hrec := ih (cb.record_failure t) hstep.1
      (by rw [hstep.2, hthr]; simp at hlt ⊢; omega)
    rw [hcons]
    refine ⟨hrec.1, ?_, ?_⟩
    · rw [hrec.2.1, hstep.2]; simp; omega
    · rw [hrec.2.2, hthr]

/-- C2: starting Closed with `failure_count = 0` and `failure_threshold = T ≥ 1`,
after any `T - 1` or fewer consecutive `record_failure` calls (no intervening
success) the breaker is still Closed, and after exactly `T` such calls it is
Open. -/
theorem closed_opens_after_threshold_failures (cb : CircuitBreaker) (times : List ℚ)
    (hT : 1 ≤ cb.failure_threshold) (hs : cb.state = .closed)
    (h0 : cb.failure_count = 0) :
    (times.length < cb.failure_threshold →
      (cb.record_failures times).state = .closed) ∧
    (times.length = cb.failure_threshold →
      (cb.record_failures times).state = .opened) := by
  constructor
  · intro hlt
    exact (record_failures_below_threshold times cb hs (by omega)).1
  · intro heq
    rcases List.eq_nil_or_concat times with rfl | ⟨init, tl, rfl⟩
    · simp at heq; omega
    · rw [List.concat_eq_append] at heq ⊢
      have hlen : init.length + 1 = cb.failure_threshold := by
        simpa using heq
      have hpre := record_failures_below_threshold init cb hs (by omega)
      have hfold : cb.record_failures (init ++ [tl]) =
          (cb.record_failures init).record_failure tl := by
        unfold CircuitBreaker.record_failures
        rw [List.foldl_append]
        rfl
      rw [hfold]
      exact record_failure_opens _ tl hpre.1 (by rw [hpre.2.1, hpre.2.2]; omega)

/-- Concrete instantiation of `closed_opens_after_threshold_failures`
(threshold 2, two failures at times 1 and 2). -/
def cbFreshTwo : CircuitBreaker :=
  { failure_threshold := 2, recovery_timeout := 300, half_open_max_calls := 1,
    state := .closed, failure_count := 0, last_failure_time := none,
    half_open_calls := 0, stats := .init }

theorem closed_opens_after_threshold_failures_witness :
    (cbFreshTwo.record_failures [1]).state = .closed ∧
      (cbFreshTwo.record_failures [1, 2]).state = .opened := by
  have h1 := closed_opens_after_threshold_failures cbFreshTwo [1]
    (by decide) rfl rfl
  have h2 := closed_opens_after_threshold_failures cbFreshTwo [1, 2]
    (by decide) rfl rfl
  exact ⟨h1.1 (by decide), h2.2 (by decide)⟩

/-- C1: while the breaker is Open and strictly less than `recovery_timeout`
has elapsed since the failure that opened it, `execute` rejects with
`CircuitOpenError` (result `none`) and the wrapped function is never invoked
(the call-count spy is unchanged). -/
theorem execute_rejects_while_open (cb : CircuitBreaker) (now t : ℚ)
    (r : FnOutcome) (n : Nat)
    (hs : cb.state = .opened) (ht : cb.last_failure_time = some t)
    (hlt : now - t < cb.recovery_timeout) :
    (cb.execute now r n).1 = none ∧ (cb.execute now r n).2.2 = n := by
  have hreq : cb.should_allow_request now = (false, cb.rejectOne) := by
    unfold CircuitBreaker.should_allow_request
    simp only [hs, ht]
    rw [if_neg (not_le.mpr hlt)]
  simp [CircuitBreaker.execute, hreq]

/-- Concrete instantiation of `execute_rejects_while_open`: breaker opened at
time 0 with a 300 s timeout, called at time 299. -/
def cbOpenAtZero : CircuitBreaker :=
  { failure_threshold := 5, recovery_timeout := 300, half_open_max_calls := 1,
    state := .opened, failure_count := 5, last_failure_time := some 0,
    half_open_calls := 0, stats := .init }

theorem execute_rejects_while_open_witness :
    (cbOpenAtZero.execute 299 .ok 7).1 = none ∧
      (cbOpenAtZero.execute 299 .ok 7).2.2 = 7 :=
  execute_rejects_while_open cbOpenAtZero 299 0 .ok 7 rfl rfl
    (by norm_num [cbOpenAtZero])

/-! ### Half-open probe admission

`execute` holds the breaker lock only for the `_should_allow_request` check;
the wrapped call itself is awaited outside the lock.  Concurrent `execute`
calls therefore interleave as successive `should_allow_request` steps on the
shared breaker state before any probe outcome is recorded. -/

/-- A breaker that opened at time 0 with `recovery_timeout = 5` and
`half_open_max_calls = 1`, observed at time 5 (timeout elapsed). -/
def cbOpenTimedOut : CircuitBreaker :=
  { failure_threshold := 5, recovery_timeout := 5, half_open_max_calls := 1,
    state := .opened, failure_count := 5, last_failure_time := some 0,
    half_open_calls := 0, stats := .init }

/-- C3 counterexample: with `max_half_open_probes = 1`, once `recovery_timeout`
has elapsed the SECOND admission check (issued before the first probe resolves)
is also admitted, and an `execute` on that intermediate state invokes the
wrapped function (spy goes 0 → 1) — the claim asserts it is rejected and the
function is not reached.  The call that triggers Open→HalfOpen is admitted
without incrementing `half_open_calls`, so the probe budget is still free. -/
theorem second_call_admitted_after_timeout :
    ((cbOpenTimedOut.should_allow_request 5).2.should_allow_request 5).1 = true ∧
      ((cbOpenTimedOut.should_allow_request 5).2.execute 5 .ok 0).1 = some .ok ∧
      ((cbOpenTimedOut.should_allow_request 5).2.execute 5 .ok 0).2.2 = 1 := by
  have hfst : cbOpenTimedOut.should_allow_request 5 =
      (true, cbOpenTimedOut.transition_to .halfOpen) := by
    unfold CircuitBreaker.should_allow_request cbOpenTimedOut
    norm_num
  refine ⟨?_, ?_, ?_⟩ <;>
    simp [hfst, CircuitBreaker.should_allow_request, CircuitBreaker.execute,
      CircuitBreaker.transition_to, cbOpenTimedOut]

/-- C3 amended: once `recovery_timeout` has elapsed on an Open breaker with
`max_half_open_probes = 1`, the call that triggers the Open→HalfOpen
transition is admitted without consuming a probe slot, and one further call
is admitted before the probe resolves; the third and subsequent calls are
rejected with `CircuitOpenError` and do not reach the wrapped function. -/
theorem timeout_admits_transition_call_plus_probe (cb : CircuitBreaker) (now t : ℚ)
    (r : FnOutcome) (n : Nat)
    (hs : cb.state = .opened) (ht : cb.last_failure_time = some t)
    (h1 : cb.half_open_max_calls = 1)
    (helapsed : cb.recovery_timeout ≤ now - t) :
    (cb.should_allow_request now).1 = true ∧
    ((cb.should_allow_request now).2.should_allow_request now).1 = true ∧
    (((cb.should_allow_request now).2.should_allow_request now).2.execute
        now r n).1 = none ∧
    (((cb.should_allow_request now).2.should_allow_request now).2.execute
        now r n).2.2 = n := by
  refine ⟨?_, ?_, ?_, ?_⟩ <;>
    simp [CircuitBreaker.should_allow_request, CircuitBreaker.transition_to,
      CircuitBreaker.execute, CircuitBreaker.rejectOne, hs, ht, helapsed, h1]

/-- Concrete instantiation of `timeout_admits_transition_call_plus_probe`
(the breaker `cbOpenTimedOut` probed three times at time 5). -/
theorem timeout_admits_transition_call_plus_probe_witness :
    (cbOpenTimedOut.should_allow_request 5).1 = true ∧
    ((cbOpenTimedOut.should_allow_request 5).2.should_allow_request 5).1 = true ∧
    (((cbOpenTimedOut.should_allow_request 5).2.should_allow_request 5).2.execute
        5 .err 3).1 = none ∧
    (((cbOpenTimedOut.should_allow_request 5).2.should_allow_request 5).2.execute
        5 .err 3).2.2 = 3 :=
  timeout_admits_transition_call_plus_probe cbOpenTimedOut 5 0 .err 3
    rfl rfl rfl (by norm_num [cbOpenTimedOut])

/-! ## Token bucket (`backend/rate_limiter.py`)

`TokenBucket._refill` is named `refill` here (a leading underscore only marks
privacy in the source).  `now` stands for `time.monotonic()`; `sleepLag ≥ 0`
models that `asyncio.sleep(wait_time)` resumes at least `wait_time` after the
first refill. -/

structure TokenBucket where
  capacity : ℚ
  refill_rate : ℚ
  tokens : ℚ
  last_refill : ℚ
deriving DecidableEq, Repr

/-- `TokenBucket._refill`: `tokens = min(capacity, tokens + elapsed*refill_rate)`,
with `elapsed = now - last_refill` taken as-is (no clamping). -/
def TokenBucket.refill (b : TokenBucket) (now : ℚ) : TokenBucket :=
  let elapsed := now - b.last_refill
  let tokens_to_add := elapsed * b.refill_rate
  { b with tokens := min b.capacity (b.tokens + tokens_to_add), last_refill := now }

/-- `TokenBucket.acquire`: refill, consume immediately if enough tokens are
available, otherwise compute the wait for the missing tokens, sleep, refill
again and consume unconditionally.  Returns the wait time and the new state. -/
def TokenBucket.acquire (b : TokenBucket) (tokens now sleepLag : ℚ) :
    ℚ × TokenBucket :=
  let b1 := b.refill now
  if tokens ≤ b1.tokens then
    (0, { b1 with tokens := b1.tokens - tokens })
  else
    let tokens_needed := tokens - b1.tokens
    let wait_time := tokens_needed / b1.refill_rate
    let b2 := b1.refill (now + wait_time + sleepLag)
    (wait_time, { b2 with tokens := b2.tokens - tokens })

/-- `TokenBucket.try_acquire`: non-blocking variant. -/
def TokenBucket.try_acquire (b : TokenBucket) (tokens now : ℚ) :
    Bool × TokenBucket :=
  let b1 := b.refill now
  if tokens ≤ b1.tokens then
    (true, { b1 with tokens := b1.tokens - tokens })
  else
    (false, b1)

/-- The spec's bucket invariant `0 ≤ tokens ≤ capacity`. -/
def TokenBucket.tokensInRange (b : TokenBucket) : Prop :=
  0 ≤ b.tokens ∧ b.tokens ≤ b.capacity

theorem refill_tokens (b : TokenBucket) (now : ℚ) :
    (b.refill now).tokens =
      min b.capacity (b.tokens + (now - b.last_refill) * b.refill_rate) := rfl

theorem refill_fields (b : TokenBucket) (now : ℚ) :
    (b.refill now).capacity = b.capacity ∧
      (b.refill now).refill_rate = b.refill_rate ∧
      (b.refill now).last_refill = now :=
  ⟨rfl, rfl, rfl⟩

theorem refill_range (b : TokenBucket) (now : ℚ)
    (hR : 0 ≤ b.refill_rate) (h0 : 0 ≤ b.tokens) (hcap : b.tokens ≤ b.capacity)
    (hmono : b.last_refill ≤ now) : (b.refill now).tokensInRange := by
  constructor
  · rw [refill_tokens]
    have : (0:ℚ) ≤ b.tokens + (now - b.last_refill) * b.refill_rate := by
      have := mul_nonneg (sub_nonneg.mpr hmono) hR
      linarith
    exact le_min (le_trans h0 hcap) this
  · rw [refill_tokens]
    exact min_le_left _ _

/-- C4 counterexample: a full bucket with `capacity = 10`, `refill_rate = 1`;
`acquire(15)` (a request above capacity) waits 5 s for the missing 5 tokens,
refills back to the 10-token cap and then consumes all 15, leaving
`tokens = -5 < 0` — the invariant `0 ≤ tokens` is violated. -/
def bFull : TokenBucket :=
  { capacity := 10, refill_rate := 1, tokens := 10, last_refill := 0 }

theorem acquire_over_capacity_breaks_invariant :
    (bFull.acquire 15 0 0).2.tokens = -5 ∧
      ¬ (bFull.acquire 15 0 0).2.tokensInRange := by
  have h : (bFull.acquire 15 0 0).2.tokens = -5 := by
    unfold TokenBucket.acquire TokenBucket.refill bFull
    norm_num
  refine ⟨h, fun hc => ?_⟩
  rw [TokenBucket.tokensInRange, h] at hc
  norm_num at hc

/-- C4 amended: starting from `0 ≤ tokens ≤ capacity` with positive
`refill_rate` and monotonic time, the invariant `0 ≤ tokens ≤ capacity` is
preserved by the lazy refill, by `try_acquire(n)` for every `n > 0`, and by
`acquire(n)` for every `0 < n ≤ capacity`; for `n > capacity` the upper bound
still holds but `acquire` leaves a negative balance (the missing-token debt),
which is how over-capacity requests eventually succeed. -/
theorem token_bucket_invariant (b : TokenBucket) (n now lag : ℚ)
    (hR : 0 < b.refill_rate) (hinv : b.tokensInRange)
    (hmono : b.last_refill ≤ now) (hlag : 0 ≤ lag) (hn : 0 < n) :
    (b.refill now).tokensInRange ∧
      (b.try_acquire n now).2.tokensInRange ∧
      (n ≤ b.capacity → (b.acquire n now lag).2.tokensInRange) ∧
      (b.acquire n now lag).2.tokens ≤ (b.acquire n now lag).2.capacity := by
  obtain ⟨h0, hcap⟩ := hinv
  have hr := refill_range b now hR.le h0 hcap hmono
  obtain ⟨hr0, hrcap⟩ := hr
  have hcapb : (b.refill now).capacity = b.capacity := rfl
  have hrateb : (b.refill now).refill_rate = b.refill_rate := rfl
  refine ⟨⟨hr0, hrcap⟩, ?_, ?_, ?_⟩
  · unfold TokenBucket.try_acquire
    by_cases hc : n ≤ (b.refill now).tokens
    · rw [if_pos hc]
      exact ⟨by simpa using sub_nonneg.mpr hc, by simp; rw [hcapb]; linarith⟩
    · rw [if_neg hc]
      exact ⟨hr0, hrcap⟩
  · intro hncap
    unfold TokenBucket.acquire
    by_cases hc : n ≤ (b.refill now).tokens
    · rw [if_pos hc]
      exact ⟨by simpa using sub_nonneg.mpr hc, by simp; rw [hcapb]; linarith⟩
    · rw [if_neg hc]
      set w : ℚ := (n - (b.refill now).tokens) / (b.refill now).refill_rate with hw
      have hkey : (b.refill now).tokens + w * b.refill_rate = n := by
        rw [hw, hrateb]
        field_simp
      have h2 : ((b.refill now).refill ((now + w) + lag)).tokens =
          min b.capacity ((b.refill now).tokens + (w + lag) * b.refill_rate) := by
        rw [refill_tokens, hcapb, hrateb]
        have hlr : (b.refill now).last_refill = now := rfl
        rw [hlr]
        ring_nf
      constructor
      · simp only []
        rw [h2]
        have hge : n ≤ min b.capacity ((b.refill now).tokens + (w + lag) * b.refill_rate) := by
          refine le_min hncap ?_
          have : 0 ≤ lag * b.refill_rate := mul_nonneg hlag hR.le
          nlinarith [hkey]
        linarith
      · simp only []
        rw [h2]
        have : min b.capacity ((b.refill now).tokens + (w + lag) * b.refill_rate)
            ≤ b.capacity := min_le_left _ _
        have hcap2 : (((b.refill now).refill ((now + w) + lag)).capacity) = b.capacity := rfl
        rw [hcap2]
        linarith
  · unfold TokenBucket.acquire
    by_cases hc : n ≤ (b.refill now).tokens
    · rw [if_pos hc]
      simp only []
      rw [hcapb]
      linarith
    · rw [if_neg hc]
      simp only []
      have hcap2 : (((b.refill now).refill
          ((now + (n - (b.refill now).tokens) / (b.refill now).refill_rate) + lag)).capacity)
          = b.capacity := rfl
      have hmin : (((b.refill now).refill
          ((now + (n - (b.refill now).tokens) / (b.refill now).refill_rate) + lag)).tokens)
          ≤ b.capacity := by
        rw [refill_tokens, hcapb]
        exact min_le_left _ _
      rw [hcap2]
      linarith

/-- Concrete instantiation of `token_bucket_invariant`: `bFull` at time 3
acquiring 4 tokens. -/
theorem token_bucket_invariant_witness :
    (bFull.refill 3).tokensInRange ∧
      (bFull.try_acquire 4 3).2.tokensInRange ∧
      ((4:ℚ) ≤ bFull.capacity → (bFull.acquire 4 3 0).2.tokensInRange) ∧
      (bFull.acquire 4 3 0).2.tokens ≤ (bFull.acquire 4 3 0).2.capacity :=
  token_bucket_invariant bFull 4 3 0 (by norm_num [bFull])
    (by constructor <;> norm_num [bFull]) (by norm_num [bFull]) le_rfl
    (by norm_num)

/-- C9 counterexample: with `capacity = 10`, `refill_rate = 1`, `tokens = 5`
and `last_refill = 10`, a refill at `now = 8` (elapsed = −2, clock skew) does
NOT leave the token count unchanged: it drops from 5 to 3.  The source applies
`tokens + elapsed*refill_rate` without clamping the negative elapsed time. -/
def bSkewed : TokenBucket :=
  { capacity := 10, refill_rate := 1, tokens := 5, last_refill := 10 }

theorem refill_negative_elapsed_changes_tokens :
    (bSkewed.refill 8).tokens = 3 ∧ bSkewed.tokens = 5 ∧
      (bSkewed.refill 8).tokens < bSkewed.tokens := by
  refine ⟨?_, rfl, ?_⟩ <;> · unfold TokenBucket.refill bSkewed; norm_num

/-- C9 amended: the lazy refill does not clamp a negative elapsed time.  When
`now < last_refill` (clock skew) and `refill_rate > 0`, starting from
`tokens ≤ capacity`, the refill sets
`tokens = tokens + (now - last_refill) * refill_rate`, strictly DECREASING the
token count instead of leaving it unchanged. -/
theorem refill_negative_elapsed_decreases (b : TokenBucket) (now : ℚ)
    (hneg : now < b.last_refill) (hR : 0 < b.refill_rate)
    (hcap : b.tokens ≤ b.capacity) :
    (b.refill now).tokens = b.tokens + (now - b.last_refill) * b.refill_rate ∧
      (b.refill now).tokens < b.tokens := by
  have hlt : b.tokens + (now - b.last_refill) * b.refill_rate < b.tokens := by
    have : (now - b.last_refill) * b.refill_rate < 0 :=
      mul_neg_of_neg_of_pos (by linarith) hR
    linarith
  have heq : (b.refill now).tokens =
      b.tokens + (now - b.last_refill) * b.refill_rate := by
    rw [refill_tokens]
    exact min_eq_right (by linarith)
  exact ⟨heq, heq ▸ hlt⟩

/-- Concrete instantiation of `refill_negative_elapsed_decreases` on
`bSkewed` at `now = 8`. -/
theorem refill_negative_elapsed_decreases_witness :
    (bSkewed.refill 8).tokens = bSkewed.tokens +
        (8 - bSkewed.last_refill) * bSkewed.refill_rate ∧
      (bSkewed.refill 8).tokens < bSkewed.tokens :=
  refill_negative_elapsed_decreases bSkewed 8 (by norm_num [bSkewed])
    (by norm_num [bSkewed]) (by norm_num [bSkewed])

/-! ## Exponential backoff (`backend/rate_limiter.py`)

`_current_delay` / `_failure_count` are named without the underscore here.
`u` models the sampled `random.uniform(-jitter_range, jitter_range)` value
added to the returned delay; the state update itself is deterministic. -/

structure ExponentialBackoff where
  base_delay : ℚ
  max_delay : ℚ
  multiplier : ℚ
  jitter : ℚ
  current_delay : ℚ
  failure_count : Nat
deriving DecidableEq, Repr

/-- `ExponentialBackoff.next_delay`: return the current delay with jitter,
then grow `current_delay = min(current_delay * multiplier, max_delay)` and
increment `failure_count`. -/
def ExponentialBackoff.next_delay (b : ExponentialBackoff) (u : ℚ) :
    ℚ × ExponentialBackoff :=
  let delay := b.current_delay + u
  (delay,
    { b with
      failure_count := b.failure_count + 1,
      current_delay := min (b.current_delay * b.multiplier) b.max_delay })

/-- `ExponentialBackoff.reset`: back to `base_delay`, zero failures. -/
def ExponentialBackoff.reset_backoff (b : ExponentialBackoff) : ExponentialBackoff :=
  { b with current_delay := b.base_delay, failure_count := 0 }

/-- A sequence of `next_delay` calls with the given jitter samples and no
intervening `reset`. -/
def ExponentialBackoff.next_delays (b : ExponentialBackoff) (us : List ℚ) :
    ExponentialBackoff :=
  us.foldl (fun c u => (c.next_delay u).2) b

theorem next_delay_fields (b : ExponentialBackoff) (u : ℚ) :
    (b.next_delay u).2.multiplier = b.multiplier ∧
      (b.next_delay u).2.max_delay = b.max_delay ∧
      (b.next_delay u).2.base_delay = b.base_delay :=
  ⟨rfl, rfl, rfl⟩

theorem next_delay_step (b : ExponentialBackoff) (u : ℚ)
    (hm : 1 ≤ b.multiplier) (h0 : 0 ≤ b.current_delay)
    (hmax : b.current_delay ≤ b.max_delay) :
    b.current_delay ≤ (b.next_delay u).2.current_delay ∧
      (b.next_delay u).2.current_delay ≤ b.max_delay ∧
      0 ≤ (b.next_delay u).2.current_delay := by
  have hcur : (b.next_delay u).2.current_delay =
      min (b.current_delay * b.multiplier) b.max_delay := rfl
  have hgrow : b.current_delay ≤ b.current_delay * b.multiplier := by
    nlinarith
  refine ⟨?_, ?_, ?_⟩
  · rw [hcur]; exact le_min hgrow hmax
  · rw [hcur]; exact min_le_right _ _
  · rw [hcur]; exact le_min (by nlinarith) (by linarith)

theorem next_delays_monotone (us : List ℚ) :
    ∀ b : ExponentialBackoff, 1 ≤ b.multiplier → 0 ≤ b.current_delay →
      b.current_delay ≤ b.max_delay →
      (b.current_delay ≤ (b.next_delays us).current_delay ∧
        (b.next_delays us).current_delay ≤ (b.next_delays us).max_delay ∧
        0 ≤ (b.next_delays us).current_delay ∧
        (b.next_delays us).multiplier = b.multiplier ∧
        (b.next_delays us).max_delay = b.max_delay ∧
        (b.next_delays us).failure_count = b.failure_count + us.length) := by
  induction us with
  | nil => intro b _ _ hmax; exact ⟨le_rfl, hmax, by assumption, rfl, rfl, rfl⟩
  | cons u rest ih =>
    intro b hm h0 hmax
    have hstep := next_delay_step b u hm h0 hmax
    have hcons : b.next_delays (u :: rest) =
        ((b.next_delay u).2).next_delays rest := rfl
    have hflds := next_delay_fields b u
    have hcount : (b.next_delay u).2.failure_count = b.failure_count + 1 := rfl
    have hrec := ih (b.next_delay u).2 (by rw [hflds.1]; exact hm) hstep.2.2
      (by rw [hflds.2.1]; exact hstep.2.1)
    rw [hcons]
    refine ⟨le_trans hstep.1 hrec.1, hrec.2.1, hrec.2.2.1, ?_, ?_, ?_⟩
    · rw [hrec.2.2.2.1, hflds.1]
    · rw [hrec.2.2.2.2.1, hflds.2.1]
    · rw [hrec.2.2.2.2.2, hcount]; simp; omega

/-- C7 counterexample: the claim's preconditions (`multiplier ≥ 1`,
`base_delay ≤ max_delay`) do not rule out a negative `base_delay`.  With
`base_delay = current_delay = -1`, `multiplier = 2` and `max_delay = 300`,
one `next_delay()` call moves `current_delay` from −1 to
`min(-1 * 2, 300) = -2`: the delay strictly DECREASES, refuting monotone
non-decrease as claimed. -/
def backoffNeg : ExponentialBackoff :=
  { base_delay := -1, max_delay := 300, multiplier := 2, jitter := 1/10,
    current_delay := -1, failure_count := 0 }

theorem backoff_negative_base_decreases :
    (backoffNeg.next_delay 0).2.current_delay = -2 ∧
      (backoffNeg.next_delay 0).2.current_delay < backoffNeg.current_delay := by
  constructor <;> · unfold ExponentialBackoff.next_delay backoffNeg; norm_num

/-- C7 amended: additionally assuming `base_delay ≥ 0` (so from the
initialized state `current_delay = base_delay` the delay is nonnegative),
each `next_delay()` increments `failure_count` by one and updates
`current_delay` to `min(current_delay * multiplier, max_delay)`, and across
any sequence of `next_delay()` calls with no `reset()` the current delay is
monotonically non-decreasing and never exceeds `max_delay`. -/
theorem backoff_monotone_bounded (b : ExponentialBackoff) (u : ℚ)
    (us vs : List ℚ)
    (hm : 1 ≤ b.multiplier) (hb0 : 0 ≤ b.base_delay)
    (hbm : b.base_delay ≤ b.max_delay) (hinit : b.current_delay = b.base_delay) :
    (b.next_delay u).2.failure_count = b.failure_count + 1 ∧
      (b.next_delay u).2.current_delay =
        min (b.current_delay * b.multiplier) b.max_delay ∧
      (b.next_delays us).current_delay ≤
        (b.next_delays (us ++ vs)).current_delay ∧
      (b.next_delays (us ++ vs)).current_delay ≤ b.max_delay := by
  have h0 : 0 ≤ b.current_delay := hinit ▸ hb0
  have hmax : b.current_delay ≤ b.max_delay := hinit ▸ hbm
  have hus := next_delays_monotone us b hm h0 hmax
  have happ : b.next_delays (us ++ vs) = (b.next_delays us).next_delays vs := by
    unfold ExponentialBackoff.next_delays
    rw [List.foldl_append]
  have hvs := next_delays_monotone vs (b.next_delays us)
    (by rw [hus.2.2.2.1]; exact hm) hus.2.2.1 hus.2.1
  refine ⟨rfl, rfl, ?_, ?_⟩
  · rw [happ]; exact hvs.1
  · rw [happ]
    calc ((b.next_delays us).next_delays vs).current_delay
        ≤ ((b.next_delays us).next_delays vs).max_delay := hvs.2.1
      _ = (b.next_delays us).max_delay := hvs.2.2.2.2.1
      _ = b.max_delay := hus.2.2.2.2.1

/-- Concrete instantiation of `backoff_monotone_bounded`: defaults
(`base = 1`, `max = 300`, `multiplier = 2`), sequences `[0]` and `[0, 1/2]`. -/
def backoffDefault : ExponentialBackoff :=
  { base_delay := 1, max_delay := 300, multiplier := 2, jitter := 1/10,
    current_delay := 1, failure_count := 0 }

theorem backoff_monotone_bounded_witness :
    (backoffDefault.next_delay 0).2.failure_count =
        backoffDefault.failure_count + 1 ∧
      (backoffDefault.next_delay 0).2.current_delay =
        min (backoffDefault.current_delay * backoffDefault.multiplier)
          backoffDefault.max_delay ∧
      (backoffDefault.next_delays [0]).current_delay ≤
        (backoffDefault.next_delays ([0] ++ [1/2])).current_delay ∧
      (backoffDefault.next_delays ([0] ++ [1/2])).current_delay ≤
        backoffDefault.max_delay :=
  backoff_monotone_bounded backoffDefault 0 [0] [1/2]
    (by norm_num [backoffDefault]) (by norm_num [backoffDefault])
    (by norm_num [backoffDefault]) rfl

/-! ## Update registry (`backend/update_registry.py`)

The `data_update_tracker` table is modelled as an association list keyed by
`(symbol, data_type)`; timestamps (ISO strings in the database, compared
lexicographically there, which is order-isomorphic to comparing the underlying
instants) are rationals. -/

/-- One row of `data_update_tracker` (the columns written by
`mark_symbol_updated`). -/
structure TrackerRow where
  last_update : ℚ
  next_update_due : ℚ
  update_count : Nat
  last_status : String
  error_message : Option String
  priority : Nat
  data_hash : Option String
deriving DecidableEq, Repr

/-- A row of `stocks` LEFT JOINed against `data_update_tracker` for one fixed
data type: the symbol, its active flag, and its tracker row if any
(`record = none` models `t.last_update IS NULL`, i.e. no prior update record). -/
structure StockRow where
  symbol : String
  is_active : Bool
  record : Option TrackerRow
deriving DecidableEq, Repr

/-- The WHERE clause of the `get_symbols_needing_update` query:
`s.is_active = 1 AND (t.last_update IS NULL OR t.last_update < cutoff
OR t.last_status = 'failed')`. -/
def isDueRow (cutoff : ℚ) (s : StockRow) : Bool :=
  s.is_active &&
    (match s.record with
     | none => true
     | some r => decide (r.last_update < cutoff) || r.last_status == "failed")

/-- First ORDER BY key: `CASE WHEN t.last_update IS NULL THEN 0 ELSE 1 END`. -/
def sortFlag (s : StockRow) : Nat :=
  match s.record with
  | none => 0
  | some _ => 1

/-- Second ORDER BY key, `t.priority ASC`.  For no-record rows the column is
NULL; since the first key already separates that group completely, the
placeholder value 0 does not affect the order. -/
def sortPrio (s : StockRow) : Nat :=
  match s.record with
  | none => 0
  | some r => r.priority

/-- Third ORDER BY key, `t.last_update ASC` (same NULL remark). -/
def sortLast (s : StockRow) : ℚ :=
  match s.record with
  | none => 0
  | some r => r.last_update

/-- The full lexicographic ORDER BY key. -/
def sortKey (s : StockRow) : ℕ ×ₗ (ℕ ×ₗ ℚ) :=
  toLex (sortFlag s, toLex (sortPrio s, sortLast s))

/-- Boolean comparison realising the query's ORDER BY. -/
def dueLe (a b : StockRow) : Bool := decide (sortKey a ≤ sortKey b)

/-- `get_symbols_needing_update` before projecting to symbols: filter by the
WHERE clause, sort by the ORDER BY key, apply LIMIT. -/
def dueRows (stocks : List StockRow) (cutoff : ℚ) (limit : Nat) :
    List StockRow :=
  (((stocks.filter (isDueRow cutoff)).mergeSort dueLe).take limit)

/-- `DataUpdateRegistry.get_symbols_needing_update`: the SELECTed symbols. -/
def get_symbols_needing_update (stocks : List StockRow) (cutoff : ℚ)
    (limit : Nat) : List String :=
  (dueRows stocks cutoff limit).map (fun s => s.symbol)

theorem dueLe_trans (a b c : StockRow) :
    dueLe a b → dueLe b c → dueLe a c := by
  unfold dueLe
  intro hab hbc
  rw [decide_eq_true_eq] at hab hbc ⊢
  exact le_trans hab hbc

theorem dueLe_total (a b : StockRow) : dueLe a b || dueLe b a := by
  unfold dueLe
  rcases le_total (sortKey a) (sortKey b) with h | h <;> simp [h]

theorem dueLe_none_of_le (a b : StockRow) (h : dueLe a b = true)
    (hb : b.record = none) : a.record = none := by
  cases ha : a.record with
  | none => rfl
  | some r =>
    exfalso
    unfold dueLe sortKey at h
    rw [decide_eq_true_eq, Prod.Lex.le_iff] at h
    have hfa : sortFlag a = 1 := by unfold sortFlag; rw [ha]
    have hfb : sortFlag b = 0 := by unfold sortFlag; rw [hb]
    rcases h with h | ⟨h, -⟩ <;> omega

/-- C5: for every joined table state, every cutoff and every limit, the due
list never exceeds `limit`, and its ordering never places an entity that has
a prior update record (stale or failed) ahead of an entity with no record:
whenever a later row has no record, every earlier row has no record either. -/
theorem get_due_ranks_never_updated_first (stocks : List StockRow)
    (cutoff : ℚ) (limit : Nat) :
    (get_symbols_needing_update stocks cutoff limit).length ≤ limit ∧
      (dueRows stocks cutoff limit).Pairwise
        (fun a b => b.record = none → a.record = none) := by
  constructor
  · rw [get_symbols_needing_update, List.length_map]
    exact List.length_take_le _ _
  · have hsorted : ((stocks.filter (isDueRow cutoff)).mergeSort dueLe).Pairwise
        (fun a b => dueLe a b = true) :=
      List.sorted_mergeSort (fun a b c => dueLe_trans a b c) dueLe_total _
    have himp : ((stocks.filter (isDueRow cutoff)).mergeSort dueLe).Pairwise
        (fun a b => b.record = none → a.record = none) :=
      hsorted.imp (fun h hb => dueLe_none_of_le _ _ h hb)
    exact himp.sublist (List.take_sublist _ _)

/-! ### `mark_symbol_updated` as an upsert -/

/-- Key of `data_update_tracker`: `(symbol, data_type)`. -/
abbrev SymbolKey := String × String

/-- Point lookup in the modelled table. -/
def lookupRow (reg : List (SymbolKey × TrackerRow)) (k : SymbolKey) :
    Option TrackerRow :=
  match reg with
  | [] => none
  | (k', r) :: rest => if k' = k then some r else lookupRow rest k

/-- `INSERT ... ON CONFLICT(symbol, data_type) DO UPDATE`: replace the row in
place when the key exists, append the insert row otherwise. -/
def upsertRow (reg : List (SymbolKey × TrackerRow)) (k : SymbolKey)
    (ins : TrackerRow) (upd : TrackerRow → TrackerRow) :
    List (SymbolKey × TrackerRow) :=
  match reg with
  | [] => [(k, ins)]
  | (k', r) :: rest =>
    if k' = k then (k', upd r) :: rest
    else (k', r) :: upsertRow rest k ins upd

/-- `DataUpdateRegistry.mark_symbol_updated`: on insert the row starts with
`update_count = 1`; on conflict every written column is overwritten from the
new values except `update_count`, which is incremented, and `priority`, which
is not in the DO UPDATE SET list. -/
def mark_symbol_updated (reg : List (SymbolKey × TrackerRow))
    (symbol data_type status : String)
    (error_message data_hash : Option String)
    (now interval : ℚ) (priority : Nat) : List (SymbolKey × TrackerRow) :=
  let next_update := now + interval
  upsertRow reg (symbol, data_type)
    { last_update := now, next_update_due := next_update, update_count := 1,
      last_status := status, error_message := error_message,
      priority := priority, data_hash := data_hash }
    (fun r =>
      { r with
        last_update := now, next_update_due := next_update,
        update_count := r.update_count + 1, last_status := status,
        error_message := error_message, data_hash := data_hash })

theorem lookupRow_upsertRow_self (reg : List (SymbolKey × TrackerRow))
    (k : SymbolKey) (ins : TrackerRow) (upd : TrackerRow → TrackerRow) :
    lookupRow (upsertRow reg k ins upd) k =
      some (match lookupRow reg k with | none => ins | some r => upd r) := by
  induction reg with
  | nil => simp [upsertRow, lookupRow]
  | cons p rest ih =>
    obtain ⟨k', r⟩ := p
    by_cases h : k' = k
    · simp [upsertRow, lookupRow, h]
    · simp [upsertRow, lookupRow, h, ih]

theorem length_upsertRow_of_found (reg : List (SymbolKey × TrackerRow))
    (k : SymbolKey) (ins : TrackerRow) (upd : TrackerRow → TrackerRow)
    (h : lookupRow reg k ≠ none) :
    (upsertRow reg k ins upd).length = reg.length := by
  induction reg with
  | nil => simp [lookupRow] at h
  | cons p rest ih =>
    obtain ⟨k', r⟩ := p
    by_cases hk : k' = k
    · simp [upsertRow, hk]
    · rw [lookupRow, if_neg hk] at h
      simp [upsertRow, hk, ih h]

/-- The registry after one `mark_symbol_updated("ACB", "price", success)` at
instant 0 with a 24-hour interval, starting from an empty table. -/
def regOnce : List (SymbolKey × TrackerRow) :=
  mark_symbol_updated [] "ACB" "price" "success" none none 0 24 1

/-- The same call repeated once more at the same instant. -/
def regTwice : List (SymbolKey × TrackerRow) :=
  mark_symbol_updated regOnce "ACB" "price" "success" none none 0 24 1

/-- C6 counterexample: two identical `mark_updated` calls at the same instant
do NOT leave the same final record as one call: the second call bumps
`update_count` from 1 to 2, so a field of the final record differs. -/
theorem mark_updated_twice_differs :
    (lookupRow regTwice ("ACB", "price")).map (fun r => r.update_count)
        = some 2 ∧
      (lookupRow regOnce ("ACB", "price")).map (fun r => r.update_count)
        = some 1 ∧
      lookupRow regTwice ("ACB", "price") ≠ lookupRow regOnce ("ACB", "price") := by
  refine ⟨?_, ?_, ?_⟩ <;>
    simp [regTwice, regOnce, mark_symbol_updated, upsertRow, lookupRow]

/-- C6 amended: `mark_updated` is an upsert, not an append — a second
identical call at the same instant adds no row and leaves every field of the
final record equal to the single-call outcome EXCEPT `update_count`, which is
incremented (2 instead of 1 from a fresh key). -/
theorem mark_updated_twice_upserts (reg : List (SymbolKey × TrackerRow))
    (symbol data_type status : String)
    (error_message data_hash : Option String)
    (now interval : ℚ) (priority : Nat) :
    (mark_symbol_updated
        (mark_symbol_updated reg symbol data_type status error_message
          data_hash now interval priority)
        symbol data_type status error_message data_hash now interval
        priority).length =
      (mark_symbol_updated reg symbol data_type status error_message data_hash
        now interval priority).length ∧
    lookupRow
        (mark_symbol_updated
          (mark_symbol_updated reg symbol data_type status error_message
            data_hash now interval priority)
          symbol data_type status error_message data_hash now interval
          priority)
        (symbol, data_type) =
      (lookupRow
          (mark_symbol_updated reg symbol data_type status error_message
            data_hash now interval priority)
          (symbol, data_type)).map
        (fun r => { r with update_count := r.update_count + 1 }) := by
  constructor
  · apply length_upsertRow_of_found
    rw [mark_symbol_updated, lookupRow_upsertRow_self]
    simp
  · rw [mark_symbol_updated, mark_symbol_updated, lookupRow_upsertRow_self,
      lookupRow_upsertRow_self]
    cases h : lookupRow reg (symbol, data_type) <;> simp

/-! ## Data worker (`backend/data_worker.py`)

The handler internals (collector calls, database upserts) are environmental:
each handler takes the outcome of its external effects as parameters and the
model records the handler's effect on the worker's own state.  `now` stands
for `datetime.now()`. -/

/-- Worker state: per-kind intervals and last-run timestamps, the current-task
label and the counters that the handlers mutate. -/
structure DataWorker where
  vn30_interval : ℚ
  top100_interval : ℚ
  all_stocks_interval : ℚ
  screener_interval : ℚ
  last_vn30_update : Option ℚ
  last_top100_update : Option ℚ
  last_all_update : Option ℚ
  last_screener_update : Option ℚ
  current_task : Option String
  total_updates : Nat
  successful_updates : Nat
  failed_updates : Nat
deriving DecidableEq, Repr

/-- The four batch handlers `run_update_cycle` can dispatch to. -/
inductive Batch where
  | vn30
  | topStocks
  | listings
  | screener
deriving DecidableEq, Repr

/-- The guard pattern `last is None or (now - last).total_seconds() >= interval`. -/
def intervalDue (last : Option ℚ) (interval now : ℚ) : Bool :=
  match last with
  | none => true
  | some t => decide (interval ≤ now - t)

/-- `DataWorker.update_vn30`: the per-symbol loop yields `updated` successes
and `fails` exceptions out of `total` symbols (symbols returning no data count
toward neither), then stamps `last_vn30_update`. -/
def DataWorker.update_vn30 (w : DataWorker) (now : ℚ) (updated fails total : Nat) :
    DataWorker :=
  { w with
    current_task := some "VN30 Update",
    successful_updates := w.successful_updates + updated,
    failed_updates := w.failed_updates + fails,
    total_updates := w.total_updates + total,
    last_vn30_update := some now }

/-- `DataWorker.update_top_stocks`: analogous, stamping `last_top100_update`. -/
def DataWorker.update_top_stocks (w : DataWorker) (now : ℚ) (updated fails total : Nat) :
    DataWorker :=
  { w with
    current_task := some "Top 100 Update",
    successful_updates := w.successful_updates + updated,
    failed_updates := w.failed_updates + fails,
    total_updates := w.total_updates + total,
    last_top100_update := some now }

/-- `DataWorker.update_all_listings`: stamps `last_all_update` only. -/
def DataWorker.update_all_listings (w : DataWorker) (now : ℚ) : DataWorker :=
  { w with
    current_task := some "Listings Update",
    last_all_update := some now }

/-- `DataWorker.update_screener`.  `result` is the outcome of
`collector.collect_screener_full()` (`.error` when it raises).  On success the
data is upserted and the success counter bumped (when non-empty); on exception
the failure counter is bumped — and in BOTH branches `last_screener_update`
is set to `now` ("Still update to avoid retry flood").  Returns the row count
(0 on failure). -/
def DataWorker.update_screener (w : DataWorker) (now : ℚ)
    (result : Except String (List String)) : Nat × DataWorker :=
  let w := { w with current_task := some "Screener Update" }
  match result with
  | .ok screener_data =>
    let w := if screener_data.isEmpty then w
      else { w with successful_updates := w.successful_updates + 1 }
    (screener_data.length,
      { w with
        last_screener_update := some now,
        total_updates := w.total_updates + 1 })
  | .error _ =>
    (0, { w with
      failed_updates := w.failed_updates + 1,
      last_screener_update := some now })

/-- `DataWorker.run_update_cycle`: check the four data kinds in priority
order; the first due kind runs its handler and the cycle returns.  The first
component lists the batches executed during this tick. -/
def DataWorker.run_update_cycle (w : DataWorker) (now : ℚ)
    (vn30_updated vn30_fails vn30_total top_updated top_fails top_total : Nat)
    (screener_result : Except String (List String)) : List Batch × DataWorker :=
  if intervalDue w.last_vn30_update w.vn30_interval now then
    ([.vn30], w.update_vn30 now vn30_updated vn30_fails vn30_total)
  else if intervalDue w.last_top100_update w.top100_interval now then
    ([.topStocks], w.update_top_stocks now top_updated top_fails top_total)
  else if intervalDue w.last_all_update w.all_stocks_interval now then
    ([.listings], w.update_all_listings now)
  else if intervalDue w.last_screener_update w.screener_interval now then
    ([.screener], (w.update_screener now screener_result).2)
  else
    ([], { w with current_task := none })

/-- C8: a single `run_update_cycle` invocation executes at most one batch,
for every worker state, tick time and environment — even when several data
kinds have outstanding work. -/
theorem run_update_cycle_at_most_one_batch (w : DataWorker) (now : ℚ)
    (vn30_updated vn30_fails vn30_total top_updated top_fails top_total : Nat)
    (screener_result : Except String (List String)) :
    (w.run_update_cycle now vn30_updated vn30_fails vn30_total top_updated
        top_fails top_total screener_result).1.length ≤ 1 := by
  unfold DataWorker.run_update_cycle
  split_ifs <;> simp

/-- C10: a failed bulk screener fetch still stamps `last_screener_update`
with the current time, so the next ticks do not retry it: every
`run_update_cycle` strictly within `screener_interval` of the failure does
not execute the screener batch.  By contrast a per-entity failure recorded
via `mark_symbol_updated(status="failed")` leaves the entity immediately
eligible: its row is selected by the due filter regardless of how recent its
`last_update` is. -/
theorem screener_failure_not_retried_until_interval (w : DataWorker)
    (now now2 : ℚ) (e : String)
    (vn30_updated vn30_fails vn30_total top_updated top_fails top_total : Nat)
    (screener_result : Except String (List String))
    (s : StockRow) (r : TrackerRow) (cutoff : ℚ)
    (hnext : now2 - now < w.screener_interval)
    (hact : s.is_active = true) (hrec : s.record = some r)
    (hfail : r.last_status = "failed") :
    ((w.update_screener now (.error e)).2.last_screener_update = some now) ∧
      (Batch.screener ∉
        ((w.update_screener now (.error e)).2.run_update_cycle now2
          vn30_updated vn30_fails vn30_total top_updated top_fails top_total
          screener_result).1) ∧
      isDueRow cutoff s = true := by
  refine ⟨rfl, ?_, ?_⟩
  · have hlast : (w.update_screener now (.error e)).2.last_screener_update
        = some now := rfl
    have hintv : (w.update_screener now (.error e)).2.screener_interval
        = w.screener_interval := rfl
    have hdue : intervalDue
        ((w.update_screener now (.error e)).2.last_screener_update)
        ((w.update_screener now (.error e)).2.screener_interval) now2 = false := by
      rw [hlast, hintv]
      unfold intervalDue
      simp only [decide_eq_false_iff_not]
      linarith
    unfold DataWorker.run_update_cycle
    split_ifs with h1 h2 h3 h4 <;> simp
    exact absurd h4 (by rw [hdue]; simp)
  · unfold isDueRow
    simp only [hact, hrec, hfail]
    simp

/-- Concrete instantiation of `screener_failure_not_retried_until_interval`:
screener fails at time 100 with a 3600 s interval; the tick at time 160 does
not re-run it, while a symbol whose tracker row is `failed` stays due. -/
def workerIdle : DataWorker :=
  { vn30_interval := 60, top100_interval := 300, all_stocks_interval := 3600,
    screener_interval := 3600,
    last_vn30_update := some 150, last_top100_update := some 150,
    last_all_update := some 150, last_screener_update := some 90,
    current_task := none, total_updates := 0, successful_updates := 0,
    failed_updates := 0 }

def failedRow : TrackerRow :=
  { last_update := 1000, next_update_due := 1024, update_count := 3,
    last_status := "failed", error_message := some "timeout", priority := 1,
    data_hash := none }

theorem screener_failure_not_retried_until_interval_witness :
    ((workerIdle.update_screener 100 (.error "boom")).2.last_screener_update
        = some 100) ∧
      (Batch.screener ∉
        ((workerIdle.update_screener 100 (.error "boom")).2.run_update_cycle 160
          0 0 30 0 0 100 (.ok [])).1) ∧
      isDueRow 0 { symbol := "ACB", is_active := true, record := some failedRow }
        = true :=
  screener_failure_not_retried_until_interval workerIdle 100 160 "boom"
    0 0 30 0 0 100 (.ok []) _ failedRow 0
    (by norm_num [workerIdle]) rfl rfl rfl

end StockScreening
